import Mathlib

/-!
# Verification of `weichspielapparat` — `src/server/runtime.js`

Shallow embedding of the runtime-launcher module of the `weichspielapparat`
Electron application.  The JavaScript source manages the lifecycle of the
external `fernspielapparat` server executable: resolving a usable binary,
installing one from a release archive if absent, computing a per-platform
process environment, spawning the server and probing its port for readiness.

Modelling conventions:
* JavaScript strings are Lean `String`s; all string manipulation is done by
  structurally recursive functions over `String.data` so that every
  definition evaluates inside the kernel (`decide`/`rfl`).
* A JavaScript environment object (`process.env`) is a partial map
  `String → Option String`; `undefined` is `none`.  Template-literal
  coercion of `undefined` to the string `"undefined"` is `jsStr`.
* Fallible asynchronous operations become `Except String` values, and the
  promise chain of `launchRuntime` becomes an explicit sequential plan of
  actions.
* The concurrent settlement of the launch promise (exit / spawn error /
  port probe) is a small state machine over an explicit event list; a
  JavaScript promise settles at most once, which the machine realises by
  ignoring settlement attempts once a result is recorded.
-/

namespace Weichspielapparat

/-! ## JavaScript string semantics -/

/-- Whitespace characters recognised by JavaScript `String.prototype.trim`
(restricted to the ASCII range, which covers every string produced by the
program). -/
def jsIsSpace (c : Char) : Bool :=
  c = ' ' || c = '\t' || c = '\n' || c = '\x0d' || c = '\x0b' || c = '\x0c'

/-- Drop leading JS whitespace. -/
def dropSpaceLeft : List Char → List Char
  | [] => []
  | c :: cs => if jsIsSpace c then dropSpaceLeft cs else c :: cs

/-- JavaScript `s.trim()` on the character list. -/
def jsTrimChars (cs : List Char) : List Char :=
  ((dropSpaceLeft cs).reverse |> dropSpaceLeft).reverse

/-- JavaScript `s.trim()`. -/
def jsTrim (s : String) : String := ⟨jsTrimChars s.data⟩

/-- JavaScript `s.split(sep)` for a single-character separator: splitting
`""` yields `[""]`, and consecutive separators yield empty pieces, exactly
as in JS. -/
def splitChar (sep : Char) : List Char → List (List Char)
  | [] => [[]]
  | c :: cs =>
    let rest := splitChar sep cs
    if c = sep then [] :: rest
    else
      match rest with
      | h :: t => (c :: h) :: t
      | [] => [[c]]

/-- JavaScript `s.split(' ')`. -/
def jsSplitOnSpace (s : String) : List String :=
  (splitChar ' ' s.data).map (fun l => ⟨l⟩)

/-- Suffix test on character lists (used for the anchored regexes of the
source, e.g. `/fernspielapparat$/`). -/
def endsWithChars (cs suffix : List Char) : Bool :=
  suffix.isSuffixOf cs

/-- Test that `s` ends with `suffix` (JS regex `/suffix$/` with a literal pattern). -/
def jsEndsWith (s suffix : String) : Bool :=
  endsWithChars s.data suffix.data

/-- ASCII lower-casing, as JavaScript `toLowerCase` acts on ASCII data. -/
def asciiLowerChar (c : Char) : Char :=
  if 'A' ≤ c ∧ c ≤ 'Z' then Char.ofNat (c.toNat + 32) else c

/-- Lower-case a string (ASCII range). -/
def asciiLower (s : String) : String := ⟨s.data.map asciiLowerChar⟩

/-- Does `pat` occur as a contiguous subsequence of `cs`? -/
def containsSeq (pat : List Char) : List Char → Bool
  | [] => pat.isEmpty
  | c :: cs => pat.isPrefixOf (c :: cs) || containsSeq pat cs

/-- Case-insensitive substring test: the JS regex `/vlc/i` generalised to a
literal pattern. -/
def containsCI (hay pat : String) : Bool :=
  containsSeq (asciiLower pat).data (asciiLower hay).data

/-- JavaScript template-literal coercion of a possibly-`undefined` string:
`undefined` interpolates as the literal text `"undefined"`. -/
def jsStr : Option String → String
  | none => "undefined"
  | some s => s

/-- JavaScript truthiness of a possibly-`undefined` string: `undefined` and
`""` are falsy. -/
def jsTruthy : Option String → Bool
  | none => false
  | some s => s ≠ ""

/-- JavaScript truthiness of a child-process exit code (`number | null`):
`null` and `0` are falsy. -/
def jsTruthyCode : Option Int → Bool
  | none => false
  | some c => c ≠ 0

/-! ## Platform constants (`runtime.js` lines 18–26) -/

/-- Source constant `defaultBind.host`: hostname for the websockets URL, not used for
binding. -/
def defaultBindHost : String := "127.0.0.1"

/-- Source constant `defaultBind.port`. -/
def defaultBindPort : Nat := 38397

/-- Source constant `wsUrl`, the template literal ``ws://$-host-:$-port-``. -/
def wsUrl : String := "ws://" ++ defaultBindHost ++ ":" ++ toString defaultBindPort

/-- Source constant `executableName`: platform-dependent canonical executable file name
(line 26).  The platform string is `os.platform()`. -/
def executableName (platform : String) : String :=
  if platform == "win32" then "fernspielapparat.exe" else "fernspielapparat"

/-- Node's `path.delimiter` for the host platform: `;` on Windows, `:`
elsewhere. -/
def delimiter (platform : String) : String :=
  if platform == "win32" then ";" else ":"

/-! ## Environment resolver (`envForPlatform`, lines 296–350) -/

/-- A JavaScript environment object: a partial map from variable names to
string values. -/
def EnvMap : Type := String → Option String

/-- Setting one key of an environment object (the effect of
`env.K = v` on the copied object). -/
def updateEnv (e : EnvMap) (k v : String) : EnvMap :=
  fun k' => if k' = k then some v else e k'

/-- Source function `vlcPluginDir()` (lines 329–338); reads `process.env.ProgramFiles` on
Windows through template-literal coercion. -/
def vlcPluginDir (platform : String) (ambient : EnvMap) : String :=
  if platform == "darwin" then
    "/Applications/VLC.app/Contents/MacOS/plugins"
  else if platform == "win32" then
    jsStr (ambient "ProgramFiles") ++ "\\VideoLAN\\VLC\\plugins"
  else
    ""

/-- Source function `vlcLibDir()` (lines 340–350). -/
def vlcLibDir (platform : String) (ambient : EnvMap) : String :=
  if platform == "darwin" then
    "/Applications/VLC.app/Contents/MacOS:/Applications/VLC.app/Contents/MacOS/lib"
  else if platform == "win32" then
    jsStr (ambient "ProgramFiles") ++ "\\VideoLAN\\VLC"
  else
    ""

/-- The test `vlcRegex.exec(value)` for `vlcRegex = /vlc/i` applied to a
possibly-`undefined` environment entry (JS coerces `undefined` to the text
`"undefined"` before matching, which never contains `vlc`). -/
def vlcMatches (v : Option String) : Bool :=
  containsCI (jsStr v) "vlc"

/-- Source function `envForPlatform()` (lines 296–327): copy the ambient environment and
overlay the VLC library/plugin locations per platform.  The source mutates
a fresh spread-copy `env = { ...process.env }`; the embedding threads the
copy functionally, so the ambient map is never changed. -/
def envForPlatform (platform : String) (ambient : EnvMap) : EnvMap :=
  if platform == "darwin" then
    let dyld := ambient "DYLD_LIBRARY_PATH"
    let env1 :=
      if vlcMatches dyld then ambient
      else
        let p := if jsTruthy dyld then jsStr dyld ++ delimiter platform else ""
        updateEnv ambient "DYLD_LIBRARY_PATH" (p ++ vlcLibDir platform ambient)
    if jsTruthy (env1 "VLC_PLUGIN_PATH") then env1
    else updateEnv env1 "VLC_PLUGIN_PATH" (vlcPluginDir platform ambient)
  else if platform == "win32" then
    let pth := ambient "Path"
    let env1 :=
      if vlcMatches pth then ambient
      else updateEnv ambient "Path"
        (jsStr pth ++ delimiter platform ++ vlcLibDir platform ambient)
    if jsTruthy (env1 "VLC_PLUGIN_PATH") then env1
    else updateEnv env1 "VLC_PLUGIN_PATH" (vlcPluginDir platform ambient)
  else
    ambient

/-! ## Version probe (`fernspielapparatVersionOnPath`, lines 161–198) -/

/-- Outcome of the `--version` child process: either the `error` event fired
(spawn failure) or the `exit` event fired with a code (`null` when killed by
a signal) after the combined stdout/stderr `output` was collected. -/
inductive ChildOutcome where
  | errored (msg : String)
  | exited (code : Option Int) (output : String)
deriving DecidableEq

/-- Template-literal rendering of an exit code (`number | null`). -/
def codeStr : Option Int → String
  | none => "null"
  | some c => toString c

/-- Source function `fernspielapparatVersionOnPath()`: reject on the `error` event or a
truthy exit code; otherwise split the combined output on single spaces and
accept exactly two pieces, resolving with the trimmed second piece. -/
def fernspielapparatVersionOnPath (child : ChildOutcome) : Except String String :=
  match child with
  | .errored msg => .error ("No fernspielapparat on path, error: " ++ msg)
  | .exited code output =>
    if jsTruthyCode code then
      .error ("Unsuccessful exit status: " ++ codeStr code ++ ", Output: \"" ++ output ++ "\"")
    else
      let outputWords := jsSplitOnSpace output
      if outputWords.length = 2 then
        .ok (jsTrim (outputWords.getD 1 ""))
      else
        .error ("Unexpected output from fernspielapparat runtime: " ++ output)

/-! ## Binary resolver (`getBinary` and the user-dir fallback, lines 48–74
and 200–228) -/

/-- Source function `userBinaryPath()` (lines 224–228): the fixed install location, the
user directory joined with the canonical executable name. -/
def userBinaryPath (platform userDir : String) : String :=
  userDir ++ "/" ++ executableName platform

/-- Permissions requested from `fs.access` (line 203): read always, execute
additionally only on non-Windows platforms. -/
structure AccessMode where
  read : Bool
  execute : Bool
deriving DecidableEq

/-- Source expression at line 203: read access always, execute access only off Windows. -/
def requiredPerms (platform : String) : AccessMode :=
  if platform == "win32" then ⟨true, false⟩ else ⟨true, true⟩

/-- Source function `fernspielapparatPathInUserDir()` (lines 200–215), given the result of
the `fs.access` callback (`none` = no error). -/
def fernspielapparatPathInUserDir (platform userDir : String)
    (accessErr : Option String) : Except String String :=
  match accessErr with
  | some m =>
    .error ("Lacking execution permissions for runtime binary at: "
      ++ userBinaryPath platform userDir ++ ", error: " ++ m)
  | none => .ok (userBinaryPath platform userDir)

/-- Source function `getBinary()` (lines 61–74): prefer the system-provided binary when the
version probe succeeds (resolving to the bare executable name), otherwise
fall back to the previously installed binary in the user directory. -/
def getBinary (platform userDir : String) (child : ChildOutcome)
    (accessErr : Option String) : Except String String :=
  match fernspielapparatVersionOnPath child with
  | .ok _version => .ok (executableName platform)
  | .error _ => fernspielapparatPathInUserDir platform userDir accessErr

/-! ## The launch pipeline as a plan of actions
(`launchRuntime`, lines 48–52) -/

/-- One observable step of the launch pipeline. -/
inductive RtAction where
  | probeVersion
  | checkAccess
  | install
  | spawnServer (pathToBinary : String)
deriving DecidableEq

/-- The promise chain `getBinary().catch(downloadBinary).then(launchServer)`
rendered as the sequence of operations actually performed, given the
outcome of every fallible step: the version probe always runs first; the
access check runs only if it failed; the installer (`downloadBinary`) runs
only if both failed; a spawn happens as the final step whenever a binary
path was obtained. -/
def launchActions (platform userDir : String) (child : ChildOutcome)
    (accessErr : Option String) (installed : Except String String) : List RtAction :=
  .probeVersion ::
    match fernspielapparatVersionOnPath child with
    | .ok _ => [.spawnServer (executableName platform)]
    | .error _ =>
      .checkAccess ::
        match fernspielapparatPathInUserDir platform userDir accessErr with
        | .ok p => [.spawnServer p]
        | .error _ =>
          .install ::
            match installed with
            | .ok p => [.spawnServer p]
            | .error _ => []

/-! ## Process supervisor: the spawn call (`launchServer`, lines 91–113) -/

/-- Node `path.dirname` (POSIX flavour): the containing directory of a
path. -/
def dirname (s : String) : String :=
  let cs := s.data
  if cs.isEmpty then "."
  else
    let isAbs := cs.head? == some '/'
    let trimmed := (cs.reverse.dropWhile (fun c => c = '/')).reverse
    let woLast := (trimmed.reverse.dropWhile (fun c => c ≠ '/')).reverse
    let parent := (woLast.reverse.dropWhile (fun c => c = '/')).reverse
    if parent.isEmpty then (if isAbs then "/" else ".") else ⟨parent⟩

/-- The arguments passed to `spawn` (lines 94–97): `-vvvv` for verbose
logging and `-s` for server mode. -/
def serverArgs : List String := ["-vvvv", "-s"]

/-- The command, arguments and options handed to `spawn` (lines 92–113). -/
structure SpawnConfig where
  cmd : String
  args : List String
  cwd : Option String
  env : EnvMap

/-- The spawn performed by `launchServer(pathToBinary)`: the command is
always `executableName`; the working directory is set to the binary's
containing directory exactly when `pathToBinary` is truthy and not one of
the two bare executable names. -/
def launchServerSpawn (platform : String) (ambient : EnvMap)
    (pathToBinary : String) : SpawnConfig :=
  { cmd := executableName platform
    args := serverArgs
    cwd :=
      if pathToBinary ≠ "" ∧ pathToBinary ≠ "fernspielapparat"
          ∧ pathToBinary ≠ "fernspielapparat.exe" then
        some (dirname pathToBinary)
      else
        none
    env := envForPlatform platform ambient }

/-! ## Installer: archive extraction
(`extractExecutableToUserDir`, lines 242–280)

The `targz` dependency hands the `tar` options through to `tar-fs`, which
processes every archive entry in order, first applying `map` to the entry
header, then computing the destination path `userDir ++ "/" ++ name` for
the (possibly renamed) entry, then consulting `ignore` on that destination
path; ignored entries are not written to disk.  `map` returning `null`
keeps the original header.  Path normalisation performed by `path.join` is
not modelled; entry names are taken to be plain relative paths without `.`
or `..` segments. -/

/-- The JS regex `/fernspielapparat$/`: the name ends with the literal
`fernspielapparat`. -/
def matchFernsp (s : String) : Bool := jsEndsWith s "fernspielapparat"

/-- A JavaScript regex line terminator, which the unescaped `.` does not
match. -/
def lineTerm (c : Char) : Bool :=
  c = '\n' || c = '\x0d' || c = '\u2028' || c = '\u2029'

/-- The name `fernspielapparat` reversed, the pattern all end-anchored matchers
compare against on the reversed character list. -/
def fernspR : List Char := "fernspielapparat".data.reverse

/-- The JS regex `/fernspielapparat.exe$/` with its unescaped dot, compiled
to a matcher on the reversed character list: the string ends with
`fernspielapparat`, then any single non-line-terminator character, then
`exe` (note `exe` is its own reverse). -/
def matchDotExeRev : List Char → Bool
  | 'e' :: 'x' :: 'e' :: c :: r => !lineTerm c && fernspR.isPrefixOf r
  | _ => false

/-- The JS regex `/fernspielapparat.exe$/` on a string. -/
def matchFernspDotExe (s : String) : Bool :=
  matchDotExeRev s.data.reverse

/-- The `map` callback (lines 256–266): rename a matching header, keep the
header unchanged otherwise (the callback returns `null` then, which
`tar-fs` treats as "keep the original header"). -/
def mapEntryName (name : String) : String :=
  if matchFernsp name then "fernspielapparat"
  else if matchFernspDotExe name then "fernspielapparat.exe"
  else name

/-- The executable test of the `ignore` callback (line 250), applied by
`tar-fs` to the entry's destination path. -/
def isWantedDest (dest : String) : Bool :=
  matchFernsp dest || matchFernspDotExe dest

/-- State threaded through the entry scan: the `binary` variable of the
source and the list of destination paths written to disk. -/
structure ExtractState where
  binary : Option String
  written : List String
deriving DecidableEq

/-- Processing of one archive entry: `map` renames, the destination is
computed, `ignore` decides whether the entry is written; a written entry
also records its destination in `binary`. -/
def extractStep (userDir : String) (st : ExtractState) (name : String) : ExtractState :=
  let dest := userDir ++ "/" ++ mapEntryName name
  if isWantedDest dest then
    { binary := some dest, written := st.written ++ [dest] }
  else st

/-- Scan all archive entries in order. -/
def extractScan (userDir : String) (entries : List String) : ExtractState :=
  entries.foldl (extractStep userDir) { binary := none, written := [] }

/-- Source function `extractExecutableToUserDir` (lines 242–280): reject on a decompression
error, reject with the not-found error if no entry set `binary`, and
resolve with the recorded destination path otherwise.  `decompressErr` is
the error argument of the `decompress` completion callback. -/
def extractExecutableToUserDir (userDir : String) (entries : List String)
    (decompressErr : Option String) : Except String String :=
  match decompressErr with
  | some m => .error ("Failed to decompress release, error: " ++ m ++ ".")
  | none =>
    match (extractScan userDir entries).binary with
    | none => .error "Could not find executable in tarball"
    | some b => .ok b

/-! ## Process supervisor and readiness prober: the settlement race
(`launchServer`, lines 91–158)

The launch promise can be settled by three concurrent sources: the child's
`exit` event (guarded by the `starting` flag), the child's `error` event,
and the port probe.  A JavaScript promise settles at most once; later
`resolve`/`reject` calls are no-ops.  The embedding runs the handlers over
an explicit list of events in arrival order. -/

/-- An asynchronous event observed by `launchServer`'s handlers. -/
inductive LaunchEvent where
  | stdoutData (chunk : String)
  | stderrData (chunk : String)
  | exited (code : Option Int)
  | spawnErrored (msg : String)
  | probeSucceeded
  | probeFailed
deriving DecidableEq

/-- The distinct rejection kinds of `launchServer`. -/
inductive LaunchError where
  | prematureExit (code : Option Int)
  | spawnFailed (msg : String)
  | probeTimeout
deriving DecidableEq

/-- The human-readable message attached to each rejection (the template
literals of lines 131, 135 and 147–149). -/
def LaunchError.message : LaunchError → String
  | .prematureExit code =>
    "fernspielapparat unexpected exit at startup with code " ++ codeStr code
  | .spawnFailed m => "fernspielapparat could not be started, error: " ++ m
  | .probeTimeout =>
    "fernspielapparat server not available on port " ++ toString defaultBindPort
      ++ " after 5 seconds, giving up."

/-- The result handed back on success (`done()`, lines 152–157): the child
process handle and the websocket URL.  The process handle type is
abstract. -/
structure Runtime (π : Type) where
  process : π
  url : String
deriving DecidableEq

/-- Mutable state of one `launchServer` call: the `starting` flag and the
settlement of its promise. -/
structure LaunchState (π : Type) where
  starting : Bool
  settled : Option (Except LaunchError (Runtime π))

/-- A `resolve`/`reject` call on the promise: a no-op once settled. -/
def settle (st : LaunchState π) (r : Except LaunchError (Runtime π)) :
    LaunchState π :=
  match st.settled with
  | some _ => st
  | none => { st with settled := some r }

/-- One event processed by the handlers installed in `launchServer`:
data events only log; `exit` rejects with the exit code when `starting` is
still set (and clears it); `error` rejects unconditionally; the probe
resolves the runtime handle on success and rejects with the timeout error
on failure. -/
def launchStep (proc : π) (st : LaunchState π) (e : LaunchEvent) :
    LaunchState π :=
  match e with
  | .stdoutData _ => st
  | .stderrData _ => st
  | .exited code =>
    if st.starting then
      settle { st with starting := false } (.error (.prematureExit code))
    else st
  | .spawnErrored m => settle st (.error (.spawnFailed m))
  | .probeSucceeded => settle st (.ok { process := proc, url := wsUrl })
  | .probeFailed => settle st (.error .probeTimeout)

/-- The initial state of a launch: starting, unsettled. -/
def launchInit (π : Type) : LaunchState π := { starting := true, settled := none }

/-- The settlement of the launch promise after a list of events. -/
def launchRun (proc : π) (events : List LaunchEvent) :
    Option (Except LaunchError (Runtime π)) :=
  (events.foldl (launchStep proc) (launchInit π)).settled

/-! ## Readiness prober configuration (lines 138–150) -/

/-- The parameter object passed to `waitPort`: the spread of `defaultBind`
plus the 150ms value. -/
structure WaitPortParams where
  host : String
  port : Nat
  timeout : Nat
deriving DecidableEq

/-- The first `waitPort` argument (lines 139–143). -/
def probeParams : WaitPortParams :=
  { host := defaultBindHost, port := defaultBindPort, timeout := 150 }

/-- The second `waitPort` argument (line 144). -/
def probeOverallArg : Nat := 5000

/-- Modelled from the spec: the `wait-port` library is an external
dependency whose source is not part of this repository.  Per the spec's
prober contract (and the call-site comments), the probe attempts a
connection every `probeParams.timeout` milliseconds and gives up after the
overall deadline given by the second argument. -/
def probeIntervalMs : Nat := probeParams.timeout

/-- Modelled from the spec: the overall readiness deadline in
milliseconds. -/
def probeDeadlineMs : Nat := probeOverallArg

/-! ## Spec-side definitions

The following definitions follow the words of the specification (not the
source); they exist to compare the spec's phrasing with the behaviour of
the embedded code. -/

/-- Spec-side: tokens of a string separated by arbitrary whitespace (the
spec speaks of "exactly two whitespace-separated tokens"). -/
def wsTokensAux : List Char → List Char → List (List Char)
  | [], acc => if acc.isEmpty then [] else [acc.reverse]
  | c :: cs, acc =>
    if jsIsSpace c then
      if acc.isEmpty then wsTokensAux cs [] else acc.reverse :: wsTokensAux cs []
    else wsTokensAux cs (c :: acc)

/-- Spec-side: the whitespace-separated tokens of a string. -/
def wsTokens (s : String) : List String :=
  (wsTokensAux s.data []).map (fun l => ⟨l⟩)

/-- Spec-side: an archive entry name suffix-matches one of the two known
executable names (`fernspielapparat` with or without the Windows
extension), taking "suffix-match" literally. -/
def specSuffixMatch (name : String) : Bool :=
  jsEndsWith name "fernspielapparat" || jsEndsWith name "fernspielapparat.exe"

/-- The recognition test the code actually applies to an entry name. -/
def wantedEntry (m : String) : Bool := matchFernsp m || matchFernspDotExe m

/-- The destination path an entry is extracted to. -/
def destOf (userDir m : String) : String := userDir ++ "/" ++ mapEntryName m

/-- The destination of the last matching entry of the archive, if any. -/
def lastMatchDest (userDir : String) : List String → Option String
  | [] => none
  | e :: rest =>
    match lastMatchDest userDir rest with
    | some d => some d
    | none => if wantedEntry e then some (destOf userDir e) else none

/-- Events that only log output and do not touch the launch promise. -/
def isDataEvent : LaunchEvent → Bool
  | .stdoutData _ => true
  | .stderrData _ => true
  | _ => false

/-- Did an `Except` computation succeed? -/
def isOkE : Except ε α → Bool
  | .ok _ => true
  | .error _ => false

/-- The last character of a string is not whitespace (in particular no
trailing newline). -/
def noTrailingSpace (s : String) : Bool :=
  match s.data.getLast? with
  | some c => !jsIsSpace c
  | none => true

/-- The platform's dynamic-library search-path variable, when the platform
has one the resolver knows about. -/
def libraryPathVar (platform : String) : Option String :=
  if platform == "darwin" then some "DYLD_LIBRARY_PATH"
  else if platform == "win32" then some "Path"
  else none

/-- A concrete Windows ambient environment: `Path` unset, plugin path set
but empty, standard `ProgramFiles`. -/
def winAmbient : EnvMap := fun q =>
  if q = "ProgramFiles" then some "C:\\Program Files"
  else if q = "VLC_PLUGIN_PATH" then some "" else none

/-! ## Sanity checks: concrete evaluations of the embedded functions -/

example :
    envForPlatform "darwin" (fun _ => none) "DYLD_LIBRARY_PATH"
      = some "/Applications/VLC.app/Contents/MacOS:/Applications/VLC.app/Contents/MacOS/lib" := by
  decide

example :
    envForPlatform "darwin" (fun k => if k = "DYLD_LIBRARY_PATH" then some "/opt/vlc/lib" else none)
      "DYLD_LIBRARY_PATH" = some "/opt/vlc/lib" := by
  decide

example :
    envForPlatform "win32"
      (fun k => if k = "ProgramFiles" then some "C:\\Program Files" else none) "Path"
      = some "undefined;C:\\Program Files\\VideoLAN\\VLC" := by
  decide

example : envForPlatform "linux" (fun _ => none) "VLC_PLUGIN_PATH" = none := by decide

example : wsUrl = "ws://127.0.0.1:38397" := by decide

example :
    fernspielapparatVersionOnPath (.exited (some 0) "fernspielapparat 0.1.0\n")
      = .ok "0.1.0" := rfl

example :
    fernspielapparatVersionOnPath (.exited (some 2) "fernspielapparat 0.1.0\n")
      = .error "Unsuccessful exit status: 2, Output: \"fernspielapparat 0.1.0\n\"" := rfl

example : dirname "/home/user/data/fernspielapparat" = "/home/user/data" := by decide

example : dirname "fernspielapparat" = "." := by decide

example :
    (launchServerSpawn "linux" (fun _ => none) "/opt/apparat/fernspielapparat").cmd
      = "fernspielapparat" := by decide

example : matchFernspDotExe "release/fernspielapparat.exe" = true := by decide

example : matchFernspDotExe "release/fernspielapparat-exe" = true := by decide

example : matchFernspDotExe "release/fernspielapparat" = false := by decide

example :
    extractExecutableToUserDir "/data" ["readme.txt", "bin/fernspielapparat", "LICENSE"] none
      = .ok "/data/fernspielapparat" := rfl

example :
    (extractScan "/data" ["readme.txt", "bin/fernspielapparat", "LICENSE"]).written
      = ["/data/fernspielapparat"] := rfl

example :
    extractExecutableToUserDir "/data" ["readme.txt"] none
      = .error "Could not find executable in tarball" := rfl

example :
    launchRun (0 : Nat) [.stderrData "booting", .probeSucceeded, .exited (some 0)]
      = some (.ok { process := 0, url := "ws://127.0.0.1:38397" }) := rfl

example :
    launchRun (0 : Nat) [.exited (some 1), .probeFailed]
      = some (.error (.prematureExit (some 1))) := rfl

/-! ## Helper lemmas: anchored matchers under path concatenation -/

/-- Boolean prefix test versus the prefix relation. -/
theorem isPrefixOf_bool_iff {l1 l2 : List Char} : l1.isPrefixOf l2 = true ↔ l1 <+: l2 :=
  List.isPrefixOf_iff_prefix

theorem isPrefixOf_self_append (p t : List Char) : p.isPrefixOf (p ++ t) = true := by
  rw [isPrefixOf_bool_iff]
  exact List.prefix_append p t

/-- A prefix of `x ++ y` no longer than `x` is a prefix of `x`. -/
theorem prefix_split {p x y : List Char} (h : p <+: x ++ y)
    (hl : p.length ≤ x.length) : p <+: x := by
  rw [List.prefix_iff_eq_take, List.take_append_eq_append_take,
    Nat.sub_eq_zero_of_le hl] at h
  rw [h, List.take_zero, List.append_nil]
  exact List.take_prefix _ _

/-- A prefix of `x ++ c :: y` longer than `x` contains `c`. -/
theorem mem_of_prefix_long {p x y : List Char} {c : Char}
    (h : p <+: x ++ c :: y) (hl : x.length < p.length) : c ∈ p := by
  rw [List.prefix_iff_eq_take, List.take_append_eq_append_take] at h
  obtain ⟨k, hk⟩ := Nat.exists_eq_succ_of_ne_zero
    (Nat.pos_iff_ne_zero.mp (Nat.sub_pos_of_lt hl))
  rw [hk, List.take_succ_cons] at h
  rw [h]
  exact List.mem_append_right _ (List.mem_cons_self c _)

/-- The length of the reversed executable-name pattern. -/
theorem fernspR_length : fernspR.length = 16 := by decide

theorem slash_not_mem_fernspR : '/' ∉ fernspR := by decide

/-- Reversed character data of a destination path `ud ++ "/" ++ x`. -/
theorem dest_data_reverse (ud x : String) :
    (ud ++ "/" ++ x).data.reverse = x.data.reverse ++ '/' :: ud.data.reverse := by
  simp [String.data_append, List.reverse_append]

/-- Inversion for the reversed `.exe` matcher. -/
theorem matchDotExeRev_inv {l : List Char} (h : matchDotExeRev l = true) :
    ∃ c r, l = 'e' :: 'x' :: 'e' :: c :: r ∧ lineTerm c = false
      ∧ fernspR.isPrefixOf r = true := by
  unfold matchDotExeRev at h
  split at h
  next c r =>
    rw [Bool.and_eq_true, Bool.not_eq_true'] at h
    exact ⟨c, r, rfl, h.1, h.2⟩
  next => exact absurd h (by simp)

/-- The reversed `.exe` matcher accepts anything that extends the renamed
executable `fernspielapparat.exe`. -/
theorem matchDotExeRev_exe_append (tail : List Char) :
    matchDotExeRev ("fernspielapparat.exe".data.reverse ++ tail) = true := by
  have hp : fernspR.isPrefixOf (fernspR ++ tail) = true := isPrefixOf_self_append _ _
  show (!lineTerm '.' && fernspR.isPrefixOf (fernspR ++ tail)) = true
  rw [hp]
  rfl

/-- The bare-name matcher accepts anything that extends the renamed
executable `fernspielapparat`. -/
theorem matchFernsp_fernsp_append (tail : List Char) :
    fernspR.isPrefixOf ("fernspielapparat".data.reverse ++ tail) = true :=
  isPrefixOf_self_append fernspR tail

/-- An unmatched entry name cannot make the bare-name matcher fire on the
destination path. -/
theorem not_matchFernsp_dest {udR mR : List Char}
    (_hud : fernspR.isPrefixOf udR = false) (hm : fernspR.isPrefixOf mR = false) :
    fernspR.isPrefixOf (mR ++ '/' :: udR) = false := by
  by_contra hcon
  rw [Bool.not_eq_false, isPrefixOf_bool_iff] at hcon
  rcases le_or_lt fernspR.length mR.length with hl | hl
  · have : fernspR <+: mR := prefix_split hcon hl
    rw [← isPrefixOf_bool_iff] at this
    exact absurd this (by rw [hm]; simp)
  · exact absurd (mem_of_prefix_long hcon hl) slash_not_mem_fernspR

/-- An unmatched entry name cannot make the `.exe` matcher fire on the
destination path (provided the user directory does not itself end in
`fernspielapparat`). -/
theorem not_matchDotExe_dest {udR mR : List Char}
    (hud : fernspR.isPrefixOf udR = false) (hm : matchDotExeRev mR = false) :
    matchDotExeRev (mR ++ '/' :: udR) = false := by
  by_contra hcon
  rw [Bool.not_eq_false] at hcon
  obtain ⟨c, r, heq, hlc, hpf⟩ := matchDotExeRev_inv hcon
  rcases mR with _ | ⟨a1, _ | ⟨a2, _ | ⟨a3, _ | ⟨a4, mR4⟩⟩⟩⟩
  · rw [List.nil_append] at heq
    exact absurd (List.cons.inj heq).1 (by decide)
  · rw [List.cons_append, List.nil_append] at heq
    exact absurd (List.cons.inj (List.cons.inj heq).2).1 (by decide)
  · simp only [List.cons_append, List.nil_append] at heq
    exact absurd (List.cons.inj (List.cons.inj (List.cons.inj heq).2).2).1 (by decide)
  · simp only [List.cons_append, List.nil_append] at heq
    obtain ⟨h1, h2⟩ := List.cons.inj heq
    obtain ⟨h3, h4⟩ := List.cons.inj h2
    obtain ⟨h5, h6⟩ := List.cons.inj h4
    obtain ⟨h7, h8⟩ := List.cons.inj h6
    rw [← h8] at hpf
    exact absurd hpf (by rw [hud]; simp)
  · simp only [List.cons_append] at heq
    obtain ⟨h1, h2⟩ := List.cons.inj heq
    obtain ⟨h3, h4⟩ := List.cons.inj h2
    obtain ⟨h5, h6⟩ := List.cons.inj h4
    obtain ⟨h7, h8⟩ := List.cons.inj h6
    rw [← h8] at hpf
    rw [h1, h3, h5, h7] at hm
    have heq2 : matchDotExeRev ('e' :: 'x' :: 'e' :: c :: mR4)
        = (!lineTerm c && fernspR.isPrefixOf mR4) := rfl
    rw [heq2, hlc] at hm
    simp at hm
    rw [isPrefixOf_bool_iff] at hpf
    rcases le_or_lt fernspR.length mR4.length with hl | hl
    · have hps : fernspR <+: mR4 := prefix_split hpf hl
      rw [← isPrefixOf_bool_iff] at hps
      exact absurd hps (by rw [hm]; simp)
    · exact absurd (mem_of_prefix_long hpf hl) slash_not_mem_fernspR

/-- The recognition the code performs on the destination path agrees with
the recognition on the raw (post-`map`) entry name, as long as the user
directory does not itself end in `fernspielapparat`. -/
theorem isWantedDest_destOf (ud m : String)
    (hud : jsEndsWith ud "fernspielapparat" = false) :
    isWantedDest (destOf ud m) = wantedEntry m := by
  have hud' : fernspR.isPrefixOf ud.data.reverse = false := hud
  by_cases h1 : matchFernsp m = true
  · have hmap : mapEntryName m = "fernspielapparat" := by
      unfold mapEntryName
      rw [h1]
      simp
    unfold isWantedDest destOf wantedEntry
    rw [hmap, h1]
    have : matchFernsp (ud ++ "/" ++ "fernspielapparat") = true := by
      show fernspR.isPrefixOf ((ud ++ "/" ++ "fernspielapparat").data.reverse) = true
      rw [dest_data_reverse]
      exact matchFernsp_fernsp_append _
    rw [this]
    simp
  · rw [Bool.not_eq_true] at h1
    by_cases h2 : matchFernspDotExe m = true
    · have hmap : mapEntryName m = "fernspielapparat.exe" := by
        unfold mapEntryName
        rw [h1, h2]
        simp
      unfold isWantedDest destOf wantedEntry
      rw [hmap, h1, h2]
      have : matchFernspDotExe (ud ++ "/" ++ "fernspielapparat.exe") = true := by
        show matchDotExeRev ((ud ++ "/" ++ "fernspielapparat.exe").data.reverse) = true
        rw [dest_data_reverse]
        exact matchDotExeRev_exe_append _
      rw [this]
      simp
    · rw [Bool.not_eq_true] at h2
      have hmap : mapEntryName m = m := by
        unfold mapEntryName
        rw [h1, h2]
        simp
      unfold isWantedDest destOf wantedEntry
      rw [hmap, h1, h2]
      have hrev : (ud ++ "/" ++ m).data.reverse = m.data.reverse ++ '/' :: ud.data.reverse :=
        dest_data_reverse ud m
      have hf : matchFernsp (ud ++ "/" ++ m) = false := by
        show fernspR.isPrefixOf ((ud ++ "/" ++ m).data.reverse) = false
        rw [hrev]
        exact not_matchFernsp_dest hud' h1
      have hx : matchFernspDotExe (ud ++ "/" ++ m) = false := by
        show matchDotExeRev ((ud ++ "/" ++ m).data.reverse) = false
        rw [hrev]
        exact not_matchDotExe_dest hud' h2
      rw [hf, hx]

/-! ## Helper lemmas: the extraction scan -/

/-- Unfolding of one extraction step through the recognition lemma. -/
theorem extractStep_eq (ud : String)
    (hud : jsEndsWith ud "fernspielapparat" = false) (st : ExtractState) (e : String) :
    extractStep ud st e =
      if wantedEntry e then
        { binary := some (destOf ud e), written := st.written ++ [destOf ud e] }
      else st := by
  simp only [extractStep]
  rw [show isWantedDest (ud ++ "/" ++ mapEntryName e) = wantedEntry e from
    isWantedDest_destOf ud e hud]
  rfl

/-- The list of files written by the extraction scan: exactly the entries
the code recognises, each at its renamed destination, in archive order. -/
theorem foldl_extractStep_written (ud : String)
    (hud : jsEndsWith ud "fernspielapparat" = false) (entries : List String) :
    ∀ st : ExtractState, (entries.foldl (extractStep ud) st).written
      = st.written ++ (entries.filter wantedEntry).map (destOf ud) := by
  induction entries with
  | nil => intro st; simp
  | cons e rest ih =>
    intro st
    rw [List.foldl_cons, ih, extractStep_eq ud hud]
    by_cases hw : wantedEntry e = true <;> simp [hw, List.filter_cons]

/-- The `binary` variable after the extraction scan: the destination of the
last recognised entry, or the initial value when none is recognised. -/
theorem foldl_extractStep_binary (ud : String)
    (hud : jsEndsWith ud "fernspielapparat" = false) (entries : List String) :
    ∀ st : ExtractState, (entries.foldl (extractStep ud) st).binary
      = match lastMatchDest ud entries with
        | some d => some d
        | none => st.binary := by
  induction entries with
  | nil => intro st; rfl
  | cons e rest ih =>
    intro st
    rw [List.foldl_cons, ih, extractStep_eq ud hud]
    rcases hrest : lastMatchDest ud rest with _ | d <;>
      by_cases hw : wantedEntry e = true <;>
        simp [lastMatchDest, hrest, hw]

/-! ## Helper lemmas: launch promise settlement -/

/-- One handler invocation never un-settles the promise. -/
theorem launchStep_settled {π : Type} (proc : π) (st : LaunchState π)
    (e : LaunchEvent) {r : Except LaunchError (Runtime π)}
    (h : st.settled = some r) : (launchStep proc st e).settled = some r := by
  cases e with
  | exited code =>
    simp only [launchStep]
    split
    · simp [settle, h]
    · exact h
  | stdoutData s => exact h
  | stderrData s => exact h
  | spawnErrored m => simp [launchStep, settle, h]
  | probeSucceeded => simp [launchStep, settle, h]
  | probeFailed => simp [launchStep, settle, h]

/-- A settled promise stays settled with the same result over any further
events. -/
theorem foldl_settled_mono {π : Type} (proc : π) (rest : List LaunchEvent)
    {st : LaunchState π} {r : Except LaunchError (Runtime π)}
    (h : st.settled = some r) :
    (rest.foldl (launchStep proc) st).settled = some r := by
  induction rest generalizing st with
  | nil => exact h
  | cons e t ih =>
    rw [List.foldl_cons]
    exact ih (launchStep_settled proc st e h)

/-- Output-data events do not change the launch state. -/
theorem launchStep_data {π : Type} (proc : π) (st : LaunchState π)
    {e : LaunchEvent} (he : isDataEvent e = true) : launchStep proc st e = st := by
  cases e <;> first
    | rfl
    | simp [isDataEvent] at he

/-- A run of output-data events leaves the initial state unchanged. -/
theorem foldl_data_events {π : Type} (proc : π) (pre : List LaunchEvent)
    (h : ∀ e ∈ pre, isDataEvent e = true) :
    pre.foldl (launchStep proc) (launchInit π) = launchInit π := by
  induction pre with
  | nil => rfl
  | cons e t ih =>
    rw [List.foldl_cons, launchStep_data proc _ (h e (List.mem_cons_self e t))]
    exact ih (fun e' he' => h e' (List.mem_cons_of_mem _ he'))

/-! ## Helper lemmas: version probe and environment -/

/-- The version probe on a zero exit code: parse the space-split output. -/
theorem versionOnPath_exited_zero (out : String) :
    fernspielapparatVersionOnPath (.exited (some 0) out)
      = if (jsSplitOnSpace out).length = 2
        then .ok (jsTrim ((jsSplitOnSpace out).getD 1 ""))
        else .error ("Unexpected output from fernspielapparat runtime: " ++ out) := by
  simp [fernspielapparatVersionOnPath, jsTruthyCode]

/-- The version probe on a non-zero exit code: reject. -/
theorem versionOnPath_exited_nonzero {c : Int} (hc : c ≠ 0) (out : String) :
    fernspielapparatVersionOnPath (.exited (some c) out)
      = .error ("Unsuccessful exit status: " ++ codeStr (some c)
          ++ ", Output: \"" ++ out ++ "\"") := by
  simp [fernspielapparatVersionOnPath, jsTruthyCode, hc]

/-- The head of `dropSpaceLeft` is never whitespace. -/
theorem head_dropSpaceLeft {l : List Char} {c : Char}
    (h : (dropSpaceLeft l).head? = some c) : jsIsSpace c = false := by
  induction l with
  | nil => simp [dropSpaceLeft] at h
  | cons a t ih =>
    unfold dropSpaceLeft at h
    by_cases ha : jsIsSpace a = true
    · rw [if_pos ha] at h
      exact ih h
    · rw [if_neg ha, List.head?_cons] at h
      obtain rfl := Option.some.inj h
      simpa using ha

/-- A trimmed string has no trailing whitespace. -/
theorem noTrailingSpace_jsTrim (s : String) : noTrailingSpace (jsTrim s) = true := by
  unfold noTrailingSpace jsTrim jsTrimChars
  rw [show (String.mk (((dropSpaceLeft s.data).reverse |> dropSpaceLeft).reverse)).data
      = ((dropSpaceLeft s.data).reverse |> dropSpaceLeft).reverse from rfl]
  rw [List.getLast?_reverse]
  rcases hh : (dropSpaceLeft (dropSpaceLeft s.data).reverse).head? with _ | c
  · rfl
  · show (!jsIsSpace c) = true
    rw [head_dropSpaceLeft hh]
    rfl

/-- Reading a key other than the updated one. -/
theorem updateEnv_ne {e : EnvMap} {a v k : String} (h : k ≠ a) :
    updateEnv e a v k = e k := by
  unfold updateEnv
  rw [if_neg h]

/-- Reading the updated key. -/
theorem updateEnv_self (e : EnvMap) (a v : String) :
    updateEnv e a v a = some v := by
  unfold updateEnv
  rw [if_pos rfl]

/-- Applying a conditional overlay at an untouched key. -/
theorem ite_env_apply (c : Prop) [Decidable c] (e : EnvMap) (a v k : String)
    (hk : k ≠ a) : (if c then e else updateEnv e a v) k = e k := by
  by_cases h : c
  · rw [if_pos h]
  · rw [if_neg h]
    exact updateEnv_ne hk

/-- The installed binary's path contains a slash. -/
theorem slash_mem_userBinaryPath (platform userDir : String) :
    '/' ∈ (userBinaryPath platform userDir).data := by
  unfold userBinaryPath
  rw [String.data_append, String.data_append]
  exact List.mem_append_left _ (List.mem_append_right _ (by decide))

/-- The installed binary's path is never one of the two bare executable
names, nor empty. -/
theorem userBinaryPath_ne_bare (platform userDir : String) :
    userBinaryPath platform userDir ≠ ""
      ∧ userBinaryPath platform userDir ≠ "fernspielapparat"
      ∧ userBinaryPath platform userDir ≠ "fernspielapparat.exe" := by
  have hs := slash_mem_userBinaryPath platform userDir
  refine ⟨?_, ?_, ?_⟩ <;> intro h <;> rw [h] at hs <;> exact absurd hs (by decide)

/-! ## Claims -/

/-- C1, counterexample: `launchServer` does not spawn the absolute resolved
path; the `spawn` command is always the bare executable name, even though
the working directory is set to the path's containing directory. -/
theorem spec_C1_counterexample :
    (launchServerSpawn "linux" (fun _ => none) "/opt/apparat/fernspielapparat").cmd
        = "fernspielapparat"
      ∧ "fernspielapparat" ≠ "/opt/apparat/fernspielapparat"
      ∧ (launchServerSpawn "linux" (fun _ => none) "/opt/apparat/fernspielapparat").cwd
        = some "/opt/apparat" :=
  ⟨rfl, by decide, by decide⟩

/-- C1, amended: for every launch the supervisor spawns the bare platform
executable name (never the absolute resolved path) with the resolved
environment and the flags `-vvvv` and `-s`; when the resolver produced the
installed binary's absolute path, the child's working directory is set to
that path's containing directory, and when the bare search-path name is
used the working directory is left unchanged. -/
theorem spec_C1_amended (platform userDir : String) (ambient : EnvMap)
    (pathToBinary : String) :
    (launchServerSpawn platform ambient pathToBinary).cmd = executableName platform
  ∧ (launchServerSpawn platform ambient pathToBinary).args = ["-vvvv", "-s"]
  ∧ (launchServerSpawn platform ambient pathToBinary).env = envForPlatform platform ambient
  ∧ (launchServerSpawn platform ambient (executableName platform)).cwd = none
  ∧ (launchServerSpawn platform ambient (userBinaryPath platform userDir)).cwd
      = some (dirname (userBinaryPath platform userDir)) := by
  refine ⟨rfl, rfl, rfl, ?_, ?_⟩
  · have hni : ¬(executableName platform ≠ "" ∧ executableName platform ≠ "fernspielapparat"
        ∧ executableName platform ≠ "fernspielapparat.exe") := by
      rintro ⟨h1, h2, h3⟩
      by_cases hw : platform == "win32"
      · exact h3 (by unfold executableName; rw [if_pos hw])
      · exact h2 (by unfold executableName; rw [if_neg hw])
    simp only [launchServerSpawn]
    rw [if_neg hni]
  · obtain ⟨h1, h2, h3⟩ := userBinaryPath_ne_bare platform userDir
    simp only [launchServerSpawn]
    rw [if_pos ⟨h1, h2, h3⟩]

/-- C2: when the child neither exits nor errors first, a successful probe
resolves the launch with the handle `(child, ws://127.0.0.1:38397)` and a
failed probe rejects it with the specific timeout error; the probe targets
port 38397 with the 150ms interval and the 5000ms overall deadline. -/
theorem spec_C2 {π : Type} (proc : π) (pre rest : List LaunchEvent)
    (h : ∀ e ∈ pre, isDataEvent e = true) :
    launchRun proc (pre ++ LaunchEvent.probeSucceeded :: rest)
        = some (.ok { process := proc, url := "ws://127.0.0.1:38397" })
  ∧ launchRun proc (pre ++ LaunchEvent.probeFailed :: rest)
        = some (.error .probeTimeout)
  ∧ LaunchError.probeTimeout.message
        = "fernspielapparat server not available on port 38397 after 5 seconds, giving up."
  ∧ probeParams.port = 38397 ∧ probeParams.host = "127.0.0.1"
  ∧ probeIntervalMs = 150 ∧ probeDeadlineMs = 5000 := by
  have hpre := foldl_data_events proc pre h
  refine ⟨?_, ?_, by decide, rfl, rfl, rfl, rfl⟩
  · show (List.foldl (launchStep proc) (launchInit π)
      (pre ++ LaunchEvent.probeSucceeded :: rest)).settled = _
    rw [List.foldl_append, hpre, List.foldl_cons]
    exact foldl_settled_mono proc rest rfl
  · show (List.foldl (launchStep proc) (launchInit π)
      (pre ++ LaunchEvent.probeFailed :: rest)).settled = _
    rw [List.foldl_append, hpre, List.foldl_cons]
    exact foldl_settled_mono proc rest rfl

/-- C2, witness. -/
theorem spec_C2_witness :
    launchRun (0 : Nat) [.stderrData "booting", .probeSucceeded]
      = some (.ok { process := 0, url := "ws://127.0.0.1:38397" }) :=
  (spec_C2 0 [.stderrData "booting"] [] (by decide)).1

/-- C3: the launch settles at most once; the probe, the exit event and the
spawn error race, the first settlement determining the outcome; an exit
while starting rejects with the exit code and is never overridden by the
probe timeout; an exit after a successful startup never changes the
resolved outcome. -/
theorem spec_C3 {π : Type} (proc : π) :
    (∀ (pre rest : List LaunchEvent) (r : Except LaunchError (Runtime π)),
        launchRun proc pre = some r → launchRun proc (pre ++ rest) = some r)
  ∧ (∀ (code : Option Int) (rest : List LaunchEvent),
        launchRun proc (.exited code :: rest)
          = some (.error (.prematureExit code)))
  ∧ (∀ (m : String) (rest : List LaunchEvent),
        launchRun proc (.spawnErrored m :: rest)
          = some (.error (.spawnFailed m)))
  ∧ (∀ (code : Option Int) (rest : List LaunchEvent),
        launchRun proc (.probeSucceeded :: .exited code :: rest)
          = some (.ok { process := proc, url := wsUrl })) := by
  refine ⟨?_, ?_, ?_, ?_⟩
  · intro pre rest r hr
    show (List.foldl (launchStep proc) (launchInit π) (pre ++ rest)).settled = some r
    rw [List.foldl_append]
    exact foldl_settled_mono proc rest hr
  · intro code rest
    show (List.foldl (launchStep proc) (launchInit π) (_ :: rest)).settled = _
    rw [List.foldl_cons]
    exact foldl_settled_mono proc rest rfl
  · intro m rest
    show (List.foldl (launchStep proc) (launchInit π) (_ :: rest)).settled = _
    rw [List.foldl_cons]
    exact foldl_settled_mono proc rest rfl
  · intro code rest
    show (List.foldl (launchStep proc) (launchInit π) (_ :: _ :: rest)).settled = _
    rw [List.foldl_cons, List.foldl_cons]
    exact foldl_settled_mono proc rest rfl

/-- C3, witness: a premature exit with code 1 settles the launch and a
later probe failure does not override it with the timeout error. -/
theorem spec_C3_witness :
    launchRun (0 : Nat) ([.exited (some 1)] ++ [.probeFailed])
      = some (.error (.prematureExit (some 1))) :=
  (spec_C3 (0 : Nat)).1 [.exited (some 1)] [.probeFailed]
    (.error (.prematureExit (some 1))) rfl

/-- C4, counterexample: recognition is not "suffix-matches one of the two
known executable names": the unescaped regex dot makes the entry
`release/fernspielapparat-exe` — a suffix match for neither name — get
recognised, written, and renamed to `fernspielapparat.exe` (which is not
the canonical name on non-Windows platforms), and extraction resolves
successfully instead of rejecting. -/
theorem spec_C4_counterexample :
    specSuffixMatch "release/fernspielapparat-exe" = false
  ∧ extractExecutableToUserDir "/data" ["release/fernspielapparat-exe"] none
      = .ok "/data/fernspielapparat.exe"
  ∧ (extractScan "/data" ["release/fernspielapparat-exe"]).written
      = ["/data/fernspielapparat.exe"] :=
  ⟨by decide, rfl, rfl⟩

/-- C4, amended: extraction recognises an entry exactly when its name ends
in `fernspielapparat`, or ends in `fernspielapparat` followed by any single
non-line-terminator character followed by `exe`; an entry of the first kind
is renamed to `fernspielapparat` and any other match to
`fernspielapparat.exe`; no other entry is written to disk (provided the
install directory's own path does not end in `fernspielapparat`);
extraction resolves with the destination path of the last matching entry
and rejects with the "could not find executable in tarball" error when no
entry matches. -/
theorem spec_C4_amended (ud : String) (entries : List String)
    (hud : jsEndsWith ud "fernspielapparat" = false) :
    (extractScan ud entries).written = (entries.filter wantedEntry).map (destOf ud)
  ∧ extractExecutableToUserDir ud entries none
      = (match lastMatchDest ud entries with
         | some d => Except.ok d
         | none => Except.error "Could not find executable in tarball")
  ∧ (∀ m, wantedEntry m = (matchFernsp m || matchFernspDotExe m))
  ∧ (∀ m, matchFernsp m = true → mapEntryName m = "fernspielapparat")
  ∧ (∀ m, matchFernsp m = false → matchFernspDotExe m = true →
        mapEntryName m = "fernspielapparat.exe") := by
  refine ⟨?_, ?_, fun m => rfl, ?_, ?_⟩
  · unfold extractScan
    rw [foldl_extractStep_written ud hud entries]
    rfl
  · unfold extractExecutableToUserDir extractScan
    rw [foldl_extractStep_binary ud hud entries]
    rcases lastMatchDest ud entries with _ | d <;> rfl
  · intro m hm
    unfold mapEntryName
    rw [hm]
    simp
  · intro m h1 h2
    unfold mapEntryName
    rw [h1, h2]
    simp

/-- C4, witness: an archive with one matching entry and one unrelated file
writes only the renamed executable. -/
theorem spec_C4_amended_witness :
    (extractScan "/data" ["sub/fernspielapparat", "notes.txt"]).written
      = ["/data/fernspielapparat"] :=
  (spec_C4_amended "/data" ["sub/fernspielapparat", "notes.txt"] (by decide)).1

/-- C5, counterexample: the probe does not accept every output with exactly
two whitespace-separated tokens — it splits on single spaces only, so the
newline-separated `fernspielapparat\n0.1.0` (two whitespace tokens) is
rejected as unparseable despite a zero exit code. -/
theorem spec_C5_counterexample :
    (wsTokens "fernspielapparat\n0.1.0").length = 2
  ∧ fernspielapparatVersionOnPath (.exited (some 0) "fernspielapparat\n0.1.0")
      = .error
          "Unexpected output from fernspielapparat runtime: fernspielapparat\n0.1.0" :=
  ⟨rfl, rfl⟩

/-- C5, amended: on a numeric exit code, the probe resolves exactly when
the code is zero and the combined output splits on single space characters
into exactly two pieces; the version is then the trimmed second piece, and
the resolver uses the bare executable name; in every other case the probe
rejects and the resolver proceeds to the user-directory fallback. -/
theorem spec_C5_amended (c : Int) (out : String) (platform userDir : String)
    (accessErr : Option String) :
    ((∃ v, fernspielapparatVersionOnPath (.exited (some c) out) = .ok v)
        ↔ (c = 0 ∧ (jsSplitOnSpace out).length = 2))
  ∧ (c = 0 → (jsSplitOnSpace out).length = 2 →
      getBinary platform userDir (.exited (some c) out) accessErr
        = .ok (executableName platform))
  ∧ (¬(c = 0 ∧ (jsSplitOnSpace out).length = 2) →
      getBinary platform userDir (.exited (some c) out) accessErr
        = fernspielapparatPathInUserDir platform userDir accessErr) := by
  by_cases hc : c = 0
  · subst hc
    by_cases hl : (jsSplitOnSpace out).length = 2
    · have hp : fernspielapparatVersionOnPath (.exited (some 0) out)
          = .ok (jsTrim ((jsSplitOnSpace out).getD 1 "")) := by
        rw [versionOnPath_exited_zero, if_pos hl]
      refine ⟨⟨fun _ => ⟨rfl, hl⟩, fun _ => ⟨_, hp⟩⟩, fun _ _ => ?_,
        fun hcon => absurd ⟨rfl, hl⟩ hcon⟩
      unfold getBinary
      rw [hp]
    · have hp : fernspielapparatVersionOnPath (.exited (some 0) out)
          = .error ("Unexpected output from fernspielapparat runtime: " ++ out) := by
        rw [versionOnPath_exited_zero, if_neg hl]
      refine ⟨⟨?_, fun hand => absurd hand.2 hl⟩, fun _ hl2 => absurd hl2 hl, fun _ => ?_⟩
      · rintro ⟨v, hv⟩
        rw [hp] at hv
        exact absurd hv (by simp)
      · unfold getBinary
        rw [hp]
  · have hp := versionOnPath_exited_nonzero hc out
    refine ⟨⟨?_, fun hand => absurd hand.1 hc⟩, fun hc2 _ => absurd hc2 hc, fun _ => ?_⟩
    · rintro ⟨v, hv⟩
      rw [hp] at hv
      exact absurd hv (by simp)
    · unfold getBinary
      rw [hp]

/-- C5, witness: a well-formed probe keeps the bare name; an unsuccessful
probe falls back to the readable installed binary. -/
theorem spec_C5_amended_witness :
    getBinary "linux" "/ud" (.exited (some 0) "fernspielapparat 0.1.0\n") (some "e")
      = .ok "fernspielapparat"
  ∧ getBinary "linux" "/ud" (.exited (some 1) "fernspielapparat 0.1.0\n") none
      = .ok "/ud/fernspielapparat" := by
  constructor
  · exact (spec_C5_amended 0 "fernspielapparat 0.1.0\n" "linux" "/ud" (some "e")).2.1
      rfl (by decide)
  · have h := (spec_C5_amended 1 "fernspielapparat 0.1.0\n" "linux" "/ud" none).2.2
      (by simp)
    exact h.trans rfl

/-- C6: the fallback checks the fixed install path requiring read
permission, with execute required additionally exactly on non-Windows
platforms, and resolves to that path on success; the installer runs exactly
once, after the two resolver steps and before the spawn, precisely when
both resolver steps fail, and never otherwise. -/
theorem spec_C6 (platform userDir : String) (child : ChildOutcome)
    (accessErr : Option String) (installed : Except String String) :
    ((requiredPerms platform).read = true
      ∧ ((requiredPerms platform).execute = true ↔ platform ≠ "win32"))
  ∧ (isOkE (fernspielapparatVersionOnPath child) = false → accessErr = none →
      getBinary platform userDir child accessErr = .ok (userBinaryPath platform userDir)
        ∧ RtAction.install ∉ launchActions platform userDir child accessErr installed)
  ∧ (isOkE (fernspielapparatVersionOnPath child) = true →
      getBinary platform userDir child accessErr = .ok (executableName platform)
        ∧ RtAction.install ∉ launchActions platform userDir child accessErr installed)
  ∧ (isOkE (fernspielapparatVersionOnPath child) = false → accessErr ≠ none →
      launchActions platform userDir child accessErr installed
        = [RtAction.probeVersion, RtAction.checkAccess, RtAction.install]
            ++ (match installed with
                | .ok p => [RtAction.spawnServer p]
                | .error _ => [])) := by
  refine ⟨?_, ?_, ?_, ?_⟩
  · unfold requiredPerms
    by_cases hw : platform == "win32"
    · rw [if_pos hw]
      have hp : platform = "win32" := by simpa using hw
      exact ⟨rfl, by simp [hp]⟩
    · rw [if_neg hw]
      have hp : platform ≠ "win32" := by simpa using hw
      exact ⟨rfl, by simp [hp]⟩
  · intro hv hacc
    subst hacc
    cases hpr : fernspielapparatVersionOnPath child with
    | ok v =>
      rw [hpr] at hv
      exact absurd hv (by simp [isOkE])
    | error e =>
      constructor
      · unfold getBinary
        rw [hpr]
        rfl
      · unfold launchActions
        rw [hpr]
        show RtAction.install ∉ [RtAction.probeVersion, RtAction.checkAccess,
          RtAction.spawnServer (userBinaryPath platform userDir)]
        simp
  · intro hv
    cases hpr : fernspielapparatVersionOnPath child with
    | error e =>
      rw [hpr] at hv
      exact absurd hv (by simp [isOkE])
    | ok v =>
      constructor
      · unfold getBinary
        rw [hpr]
      · unfold launchActions
        rw [hpr]
        simp
  · intro hv hacc
    cases hpr : fernspielapparatVersionOnPath child with
    | ok v =>
      rw [hpr] at hv
      exact absurd hv (by simp [isOkE])
    | error e =>
      rcases accessErr with _ | msg
      · exact absurd rfl hacc
      · unfold launchActions
        rw [hpr]
        rfl

/-- C6, witness: with a failed probe and a readable installed binary, the
resolver picks the install path without installing; with both steps
failing, the installer runs exactly once between the access check and the
spawn. -/
theorem spec_C6_witness :
    getBinary "linux" "/ud" (.errored "spawn ENOENT") none = .ok "/ud/fernspielapparat"
  ∧ launchActions "linux" "/ud" (.errored "spawn ENOENT") (some "EACCES")
        (.ok "/ud/fernspielapparat")
      = [.probeVersion, .checkAccess, .install, .spawnServer "/ud/fernspielapparat"] := by
  constructor
  · exact ((spec_C6 "linux" "/ud" (.errored "spawn ENOENT") none (.ok "x")).2.1
      rfl rfl).1
  · have h := (spec_C6 "linux" "/ud" (.errored "spawn ENOENT") (some "EACCES")
      (.ok "/ud/fernspielapparat")).2.2.2 rfl (by simp)
    exact h.trans rfl

/-- C7: the environment resolver never changes any entry other than the
platform's library-search-path variable and the plugin-directory variable;
in the pure embedding the ambient map itself is untouched by construction,
and the resolved copy agrees with it on every other key. -/
theorem spec_C7 (platform : String) (ambient : EnvMap) (k : String)
    (hlib : some k ≠ libraryPathVar platform) (hplug : k ≠ "VLC_PLUGIN_PATH") :
    envForPlatform platform ambient k = ambient k := by
  by_cases hd : platform == "darwin"
  · have hk : k ≠ "DYLD_LIBRARY_PATH" := by
      intro h
      apply hlib
      rw [h]
      unfold libraryPathVar
      rw [if_pos hd]
    unfold envForPlatform
    rw [if_pos hd]
    exact (ite_env_apply _ _ _ _ k hplug).trans (ite_env_apply _ _ _ _ k hk)
  · by_cases hw : platform == "win32"
    · have hk : k ≠ "Path" := by
        intro h
        apply hlib
        rw [h]
        unfold libraryPathVar
        rw [if_neg hd, if_pos hw]
      unfold envForPlatform
      rw [if_neg hd, if_pos hw]
      exact (ite_env_apply _ _ _ _ k hplug).trans (ite_env_apply _ _ _ _ k hk)
    · unfold envForPlatform
      rw [if_neg hd, if_neg hw]

/-- C7, witness. -/
theorem spec_C7_witness :
    envForPlatform "darwin" (fun _ => some "/x") "HOME" = some "/x" :=
  spec_C7 "darwin" (fun _ => some "/x") "HOME" (by decide) (by decide)

/-- C8, counterexample: on Windows with `Path` unset, the appended value
starts with the literal text `undefined` instead of being the bare default
directory, and a set-but-empty `VLC_PLUGIN_PATH` is overwritten although it
is not unset. -/
theorem spec_C8_counterexample :
    winAmbient "Path" = none
  ∧ winAmbient "VLC_PLUGIN_PATH" = some ""
  ∧ envForPlatform "win32" winAmbient "Path"
      = some "undefined;C:\\Program Files\\VideoLAN\\VLC"
  ∧ envForPlatform "win32" winAmbient "VLC_PLUGIN_PATH"
      = some "C:\\Program Files\\VideoLAN\\VLC\\plugins" :=
  ⟨rfl, rfl, by decide, by decide⟩

/-- C8, amended: a library-path value containing `vlc` (case-insensitively)
is left untouched and not duplicated; otherwise on macOS the default VLC
directory is appended with a truthy existing value preserved as a
colon-separated prefix, while on Windows the existing value is interpolated
unconditionally (an unset `Path` contributing the literal text `undefined`)
before the semicolon and the default directory; the plugin-directory
variable is set to the default plugin path whenever it is unset or empty;
on all other platforms the environment is returned unchanged. -/
theorem spec_C8_amended (ambient : EnvMap) :
    (vlcMatches (ambient "DYLD_LIBRARY_PATH") = true →
        envForPlatform "darwin" ambient "DYLD_LIBRARY_PATH"
          = ambient "DYLD_LIBRARY_PATH")
  ∧ (vlcMatches (ambient "DYLD_LIBRARY_PATH") = false →
        envForPlatform "darwin" ambient "DYLD_LIBRARY_PATH"
          = some ((if jsTruthy (ambient "DYLD_LIBRARY_PATH") then
                jsStr (ambient "DYLD_LIBRARY_PATH") ++ ":" else "")
              ++ "/Applications/VLC.app/Contents/MacOS:/Applications/VLC.app/Contents/MacOS/lib"))
  ∧ (vlcMatches (ambient "Path") = true →
        envForPlatform "win32" ambient "Path" = ambient "Path")
  ∧ (vlcMatches (ambient "Path") = false →
        envForPlatform "win32" ambient "Path"
          = some (jsStr (ambient "Path") ++ ";"
              ++ (jsStr (ambient "ProgramFiles") ++ "\\VideoLAN\\VLC")))
  ∧ (jsTruthy (ambient "VLC_PLUGIN_PATH") = true →
        envForPlatform "darwin" ambient "VLC_PLUGIN_PATH"
            = ambient "VLC_PLUGIN_PATH"
          ∧ envForPlatform "win32" ambient "VLC_PLUGIN_PATH"
            = ambient "VLC_PLUGIN_PATH")
  ∧ (jsTruthy (ambient "VLC_PLUGIN_PATH") = false →
        envForPlatform "darwin" ambient "VLC_PLUGIN_PATH"
            = some "/Applications/VLC.app/Contents/MacOS/plugins"
          ∧ envForPlatform "win32" ambient "VLC_PLUGIN_PATH"
            = some (jsStr (ambient "ProgramFiles") ++ "\\VideoLAN\\VLC\\plugins"))
  ∧ (∀ platform, platform ≠ "darwin" → platform ≠ "win32" →
        ∀ k, envForPlatform platform ambient k = ambient k) := by
  refine ⟨?_, ?_, ?_, ?_, ?_, ?_, ?_⟩
  · intro h
    unfold envForPlatform
    rw [if_pos (beq_self_eq_true _), if_pos h]
    exact ite_env_apply _ _ _ _ _ (by decide)
  · intro h
    unfold envForPlatform
    rw [if_pos (beq_self_eq_true _)]
    refine (ite_env_apply _ _ _ _ _ (by decide)).trans ?_
    rw [if_neg (show ¬(vlcMatches (ambient "DYLD_LIBRARY_PATH") = true) from by
      rw [h]; exact Bool.false_ne_true)]
    exact updateEnv_self _ _ _
  · intro h
    unfold envForPlatform
    rw [if_neg (by decide), if_pos (beq_self_eq_true _), if_pos h]
    exact ite_env_apply _ _ _ _ _ (by decide)
  · intro h
    unfold envForPlatform
    rw [if_neg (by decide), if_pos (beq_self_eq_true _)]
    refine (ite_env_apply _ _ _ _ _ (by decide)).trans ?_
    rw [if_neg (show ¬(vlcMatches (ambient "Path") = true) from by
      rw [h]; exact Bool.false_ne_true)]
    exact updateEnv_self _ _ _
  · intro h
    constructor
    · unfold envForPlatform
      rw [if_pos (beq_self_eq_true _)]
      by_cases hv : vlcMatches (ambient "DYLD_LIBRARY_PATH") = true
      · rw [if_pos hv, if_pos h]
      · rw [if_neg hv, updateEnv_ne (show ("VLC_PLUGIN_PATH" : String) ≠ "DYLD_LIBRARY_PATH" by decide),
          if_pos h]
        exact updateEnv_ne (by decide)
    · unfold envForPlatform
      rw [if_neg (by decide), if_pos (beq_self_eq_true _)]
      by_cases hv : vlcMatches (ambient "Path") = true
      · rw [if_pos hv, if_pos h]
      · rw [if_neg hv, updateEnv_ne (show ("VLC_PLUGIN_PATH" : String) ≠ "Path" by decide),
          if_pos h]
        exact updateEnv_ne (by decide)
  · intro h
    constructor
    · unfold envForPlatform
      rw [if_pos (beq_self_eq_true _)]
      by_cases hv : vlcMatches (ambient "DYLD_LIBRARY_PATH") = true
      · rw [if_pos hv, if_neg (by rw [h]; exact Bool.false_ne_true)]
        exact updateEnv_self _ _ _
      · rw [if_neg hv, updateEnv_ne (show ("VLC_PLUGIN_PATH" : String) ≠ "DYLD_LIBRARY_PATH" by decide),
          if_neg (by rw [h]; exact Bool.false_ne_true)]
        exact updateEnv_self _ _ _
    · unfold envForPlatform
      rw [if_neg (by decide), if_pos (beq_self_eq_true _)]
      by_cases hv : vlcMatches (ambient "Path") = true
      · rw [if_pos hv, if_neg (by rw [h]; exact Bool.false_ne_true)]
        exact updateEnv_self _ _ _
      · rw [if_neg hv, updateEnv_ne (show ("VLC_PLUGIN_PATH" : String) ≠ "Path" by decide),
          if_neg (by rw [h]; exact Bool.false_ne_true)]
        exact updateEnv_self _ _ _
  · intro platform h1 h2 k
    unfold envForPlatform
    rw [if_neg (by simpa using h1), if_neg (by simpa using h2)]

/-- C8, witness: on macOS with nothing set, the library path becomes the
default VLC directory. -/
theorem spec_C8_amended_witness :
    envForPlatform "darwin" (fun _ => none) "DYLD_LIBRARY_PATH"
      = some "/Applications/VLC.app/Contents/MacOS:/Applications/VLC.app/Contents/MacOS/lib" :=
  (spec_C8_amended (fun _ => none)).2.1 rfl

/-- C9, counterexample: with one match of each kind, both entries are
written under two different names, so the later entry does not overwrite
the earlier one on disk; the resolved path is still the last match's. -/
theorem spec_C9_counterexample :
    (extractScan "/data" ["a/fernspielapparat", "b/fernspielapparat.exe"]).written
        = ["/data/fernspielapparat", "/data/fernspielapparat.exe"]
  ∧ "/data/fernspielapparat" ≠ "/data/fernspielapparat.exe"
  ∧ extractExecutableToUserDir "/data"
        ["a/fernspielapparat", "b/fernspielapparat.exe"] none
      = .ok "/data/fernspielapparat.exe" :=
  ⟨rfl, by decide, rfl⟩

/-- C9, amended: every matching entry is written; a match ending in
`fernspielapparat` lands at the bare destination and any other match at the
`.exe` destination, so matches of the same kind overwrite one another;
extraction resolves with the destination of the last matching entry; there
is no exactly-one-match guarantee. -/
theorem spec_C9_amended (ud : String) (entries : List String)
    (hud : jsEndsWith ud "fernspielapparat" = false) :
    (extractScan ud entries).written.length = (entries.filter wantedEntry).length
  ∧ (∀ d ∈ (extractScan ud entries).written,
        d = ud ++ "/" ++ "fernspielapparat" ∨ d = ud ++ "/" ++ "fernspielapparat.exe")
  ∧ extractExecutableToUserDir ud entries none
      = (match lastMatchDest ud entries with
         | some d => Except.ok d
         | none => Except.error "Could not find executable in tarball") := by
  have hw : (extractScan ud entries).written
      = (entries.filter wantedEntry).map (destOf ud) := by
    unfold extractScan
    rw [foldl_extractStep_written ud hud entries]
    rfl
  refine ⟨?_, ?_, ?_⟩
  · rw [hw, List.length_map]
  · intro d hd
    rw [hw] at hd
    obtain ⟨m, hm, rfl⟩ := List.mem_map.mp hd
    have hwm : wantedEntry m = true := List.of_mem_filter hm
    unfold destOf mapEntryName
    by_cases h1 : matchFernsp m = true
    · left
      rw [h1]
      simp
    · right
      rw [Bool.not_eq_true] at h1
      have h2 : matchFernspDotExe m = true := by
        unfold wantedEntry at hwm
        rw [h1] at hwm
        simpa using hwm
      rw [h1, h2]
      simp
  · unfold extractExecutableToUserDir extractScan
    rw [foldl_extractStep_binary ud hud entries]
    rcases lastMatchDest ud entries with _ | d <;> rfl

/-- C9, witness: two matches of the same kind are both written to the same
destination, and the archive resolves to that destination. -/
theorem spec_C9_amended_witness :
    (extractScan "/data" ["a/fernspielapparat", "x.txt", "b/fernspielapparat"]).written.length
      = (["a/fernspielapparat", "x.txt", "b/fernspielapparat"].filter wantedEntry).length :=
  (spec_C9_amended "/data" ["a/fernspielapparat", "x.txt", "b/fernspielapparat"]
    (by decide)).1

/-- C10: whenever the version probe resolves, the resolved version is the
second space-separated piece of the output with surrounding whitespace
trimmed, so it never ends in whitespace — in particular a trailing newline
of the child's output never appears in it. -/
theorem spec_C10 (out v : String)
    (h : fernspielapparatVersionOnPath (.exited (some 0) out) = .ok v) :
    v = jsTrim ((jsSplitOnSpace out).getD 1 "") ∧ noTrailingSpace v = true := by
  rw [versionOnPath_exited_zero] at h
  by_cases hl : (jsSplitOnSpace out).length = 2
  · rw [if_pos hl] at h
    have hv : v = jsTrim ((jsSplitOnSpace out).getD 1 "") := (Except.ok.inj h).symm
    refine ⟨hv, ?_⟩
    rw [hv]
    exact noTrailingSpace_jsTrim _
  · rw [if_neg hl] at h
    exact absurd h (by simp)

/-- C10, witness: `"fernspielapparat 0.1.0\n"` resolves to `"0.1.0"` with
the newline gone. -/
theorem spec_C10_witness :
    ("0.1.0" : String) = jsTrim ((jsSplitOnSpace "fernspielapparat 0.1.0\n").getD 1 "")
  ∧ noTrailingSpace "0.1.0" = true :=
  spec_C10 "fernspielapparat 0.1.0\n" "0.1.0" rfl

end Weichspielapparat
